import Mathlib

/-!
Verification of the Proof-of-Work consensus engine in
src/src/c3_consensus/p1_pow.rs, a shallow embedding of the Rust source.

The header type, the generic hash service and the consensus trait live
outside the provided sources, so they are modelled from the specification;
the `Pow` engine itself (`validate`, `seal`, and the two difficulty
presets) is translated line by line from the Rust file.
-/

namespace P1Pow

/-- Largest value of the Rust type u64, that is 18446744073709551615. -/
def u64MAX : Nat := 2 ^ 64 - 1

/-- Modelled from the spec: the block header record, generic over the
consensus digest type. The spec lists the fields parent, height,
extrinsics_root, state_root (all hash values or unsigned integers, modelled
as Nat) and the engine specific consensus_digest of type D. -/
structure Header (D : Type) where
  parent : Nat
  height : Nat
  extrinsics_root : Nat
  state_root : Nat
  consensus_digest : D
deriving DecidableEq

/-- Modelled from the spec: the serializable representation of a sealed
header (digest type u64) that the external hash service consumes. Every
field is written in declaration order, the digest included, matching the
spec sentence that validation hashes the full header record including its
digest field. -/
def Header.encode (h : Header Nat) : List Nat :=
  [h.parent, h.height, h.extrinsics_root, h.state_root, h.consensus_digest]

/-- Modelled from the spec: the serializable representation of a partial
header (digest type unit). The unit digest carries no data, so only the
four fixed fields are written. -/
def Header.encodeUnit (h : Header Unit) : List Nat :=
  [h.parent, h.height, h.extrinsics_root, h.state_root]

/-- The Pow engine: one immutable configuration value, the threshold. -/
structure Pow where
  threshold : Nat
deriving DecidableEq

/-- Source line 24: the hash computed by Pow::validate, namely the external
hash service applied to the full sealed header. The hash service itself is
a collaborator outside this core, so it is passed in as a function hashFn
from encoded representations to u64 values. -/
def Pow.validateHash (hashFn : List Nat → Nat) (header : Header Nat) : Nat :=
  hashFn header.encode

/-- Source lines 22 to 26: Pow::validate checks that the header hash is
below the threshold; the parent digest parameter is ignored. -/
def Pow.validate (hashFn : List Nat → Nat) (P : Pow) (parentDigest : Nat)
    (header : Header Nat) : Bool :=
  decide (Pow.validateHash hashFn header < P.threshold)

/-- Source line 32: the input hashed in the body of the seal loop at a given
candidate nonce. The source hashes the unchanged partial header
(hash of partial_header), so the candidate nonce is not part of the input
and the nonce argument is unused. -/
def sealHashInput (ph : Header Unit) (nonce : Nat) : List Nat :=
  ph.encodeUnit

/-- Modelled from the spec: the hash input the specification prescribes for
the seal loop, combining the fixed fields of the partial header with the
candidate nonce. Written only to compare against sealHashInput, the input
the source actually hashes. -/
def specSealHashInput (ph : Header Unit) (nonce : Nat) : List Nat :=
  [ph.parent, ph.height, ph.extrinsics_root, ph.state_root, nonce]

/-- Source lines 31 to 42: the body of the for loop in Pow::seal, as a
recursion on the number of remaining iterations. At each step the loop
hashes sealHashInput ph nonce (the unchanged partial header), returns the
sealed header carrying the current nonce when the hash is below the
threshold, and otherwise moves to the next nonce. Exhausting the range
yields none. -/
def Pow.sealFrom (hashFn : List Nat → Nat) (P : Pow) (ph : Header Unit) :
    Nat → Nat → Option (Header Nat)
  | _nonce, 0 => none
  | nonce, fuel + 1 =>
    if hashFn (sealHashInput ph nonce) < P.threshold then
      some ⟨ph.parent, ph.height, ph.extrinsics_root, ph.state_root, nonce⟩
    else
      Pow.sealFrom hashFn P ph (nonce + 1) fuel

/-- Source lines 30 to 44: Pow::seal. The Rust loop is
for nonce in 0..u64::MAX, so the nonce starts at 0 and the range holds
u64MAX values (all nonces strictly below u64::MAX); the parent digest
parameter is ignored. -/
def Pow.seal (hashFn : List Nat → Nat) (P : Pow) (parentDigest : Nat)
    (ph : Header Unit) : Option (Header Nat) :=
  Pow.sealFrom hashFn P ph 0 u64MAX

/-- Source lines 49 to 53: the moderate difficulty preset, threshold
u64::MAX / 100 in integer division. -/
def moderate_difficulty_pow : Pow :=
  ⟨u64MAX / 100⟩

/-- Source lines 57 to 61: the trivial always-valid preset, threshold
u64::MAX. -/
def trivial_always_valid_pow : Pow :=
  ⟨u64MAX⟩

/-! ## Helper lemmas shared by the claim theorems -/

/-- The hash input of the seal loop does not depend on the candidate nonce:
the source hashes the unchanged partial header on every iteration. -/
lemma sealHashInput_const (ph : Header Unit) (m n : Nat) :
    sealHashInput ph m = sealHashInput ph n := rfl

/-- One unfolding step of the seal loop. -/
lemma Pow.sealFrom_succ (hashFn : List Nat → Nat) (P : Pow) (ph : Header Unit)
    (nonce fuel : Nat) :
    Pow.sealFrom hashFn P ph nonce (fuel + 1) =
      if hashFn (sealHashInput ph nonce) < P.threshold then
        some ⟨ph.parent, ph.height, ph.extrinsics_root, ph.state_root, nonce⟩
      else
        Pow.sealFrom hashFn P ph (nonce + 1) fuel := by
  simp [Pow.sealFrom]

/-- When the (nonce independent) loop test fails, the loop returns none for
every fuel and every starting nonce. -/
lemma Pow.sealFrom_none (hashFn : List Nat → Nat) (P : Pow) (ph : Header Unit)
    (h : ¬ hashFn (sealHashInput ph 0) < P.threshold) :
    ∀ fuel nonce, Pow.sealFrom hashFn P ph nonce fuel = none := by
  intro fuel
  induction fuel with
  | zero => intro nonce; simp [Pow.sealFrom]
  | succ fuel ih =>
    intro nonce
    rw [Pow.sealFrom_succ, if_neg, ih]
    exact h

/-- Closed form of Pow::seal: since the hashed input never changes across
iterations, the loop either succeeds immediately at nonce 0 or never. -/
lemma Pow.seal_eq (hashFn : List Nat → Nat) (P : Pow) (parentDigest : Nat)
    (ph : Header Unit) :
    Pow.seal hashFn P parentDigest ph =
      if hashFn (sealHashInput ph 0) < P.threshold then
        some ⟨ph.parent, ph.height, ph.extrinsics_root, ph.state_root, 0⟩
      else
        none := by
  have hM : u64MAX = 18446744073709551614 + 1 := by norm_num [u64MAX]
  unfold Pow.seal
  rw [hM, Pow.sealFrom_succ]
  by_cases h : hashFn (sealHashInput ph 0) < P.threshold
  · rw [if_pos h, if_pos h]
  · rw [if_neg h, if_neg h, Pow.sealFrom_none hashFn P ph h]

/-! ## Claim theorems -/

/-- C1: the round-trip property fails on the code. The seal loop tests the
hash of the unit-digest partial header while validate hashes the full
sealed header, so a deterministic hash service can accept the former and
reject the latter. With the hash fun l to l.length / 5 and threshold 1,
seal succeeds (partial encoding has length 4, hash 0 below 1) yet validate
of the returned sealed header is false (sealed encoding has length 5,
hash 1, not below 1). -/
theorem seal_validate_roundtrip_fails :
    Pow.seal (fun l => l.length / 5) ⟨1⟩ 0 ⟨0, 0, 0, 0, ()⟩ =
      some ⟨0, 0, 0, 0, 0⟩ ∧
    Pow.validate (fun l => l.length / 5) ⟨1⟩ 0 ⟨0, 0, 0, 0, 0⟩ = false := by
  constructor
  · rw [Pow.seal_eq]; rfl
  · rfl

/-- C2: the hash input of the seal loop does not vary with the candidate
nonce. At the all-zero partial header the input hashed at nonce 0 equals
the input hashed at nonce 1, and differs from the fixed-fields-plus-nonce
combination the spec prescribes. -/
theorem seal_hash_input_ignores_nonce :
    sealHashInput ⟨0, 0, 0, 0, ()⟩ 0 = sealHashInput ⟨0, 0, 0, 0, ()⟩ 1 ∧
    sealHashInput ⟨0, 0, 0, 0, ()⟩ 1 ≠ specSealHashInput ⟨0, 0, 0, 0, ()⟩ 1 := by
  exact ⟨rfl, by decide⟩

/-- C3: since the hashed value never changes across iterations, Pow::seal
either returns on the very first iteration, with consensus_digest 0 and
exactly when the hash of the partial header is below the threshold, or runs
the whole range and returns none; in particular no returned sealed header
carries a nonce other than 0. -/
theorem seal_first_iteration_or_none (hashFn : List Nat → Nat) (P : Pow)
    (parentDigest : Nat) (ph : Header Unit) :
    Pow.seal hashFn P parentDigest ph =
      if hashFn (sealHashInput ph 0) < P.threshold then
        some ⟨ph.parent, ph.height, ph.extrinsics_root, ph.state_root, 0⟩
      else
        none :=
  Pow.seal_eq hashFn P parentDigest ph

/-- C4 counterexample: the claim fails as stated. The hash service is only
contracted to be a deterministic u64-valued function, so a header may hash
to u64::MAX itself; the strict comparison then rejects it even at the
trivial threshold. -/
theorem trivial_validate_max_hash_rejected :
    Pow.validate (fun _ => u64MAX) trivial_always_valid_pow 0
      ⟨0, 0, 0, 0, 0⟩ = false := by
  simp [Pow.validate, Pow.validateHash, trivial_always_valid_pow]

/-- C4 amended: for the trivial engine, validate returns true for every
header whose hash is strictly below u64::MAX (every header except those the
service hashes exactly to u64::MAX), for every digest value including 0. -/
theorem trivial_validate_below_max (hashFn : List Nat → Nat)
    (parentDigest : Nat) (header : Header Nat)
    (h : Pow.validateHash hashFn header < u64MAX) :
    Pow.validate hashFn trivial_always_valid_pow parentDigest header = true := by
  simpa [Pow.validate, trivial_always_valid_pow] using h

/-- C4 witness: the amended theorem applied at the all-zero header and the
constant-zero hash service. -/
theorem trivial_validate_below_max_witness :
    Pow.validateHash (fun _ => 0) ⟨0, 0, 0, 0, 0⟩ < u64MAX ∧
    Pow.validate (fun _ => 0) trivial_always_valid_pow 0 ⟨0, 0, 0, 0, 0⟩ = true :=
  ⟨by decide, trivial_validate_below_max (fun _ => 0) 0 ⟨0, 0, 0, 0, 0⟩ (by decide)⟩

/-- C5 counterexample: the claim fails as stated. When the partial header
hashes exactly to u64::MAX, no iteration of the trivial engine's seal loop
passes the strict comparison and seal returns none. -/
theorem trivial_seal_max_hash_none :
    Pow.seal (fun _ => u64MAX) trivial_always_valid_pow 0
      ⟨0, 0, 0, 0, ()⟩ = none := by
  rw [Pow.seal_eq]
  simp [trivial_always_valid_pow]

/-- C5 amended: for the trivial engine, whenever the partial header's hash
is strictly below u64::MAX, seal succeeds on the first attempted nonce 0
and the returned sealed header's non-digest fields exactly equal the input
partial header's fields. -/
theorem trivial_seal_first_nonce (hashFn : List Nat → Nat)
    (parentDigest : Nat) (ph : Header Unit)
    (h : hashFn (sealHashInput ph 0) < u64MAX) :
    Pow.seal hashFn trivial_always_valid_pow parentDigest ph =
      some ⟨ph.parent, ph.height, ph.extrinsics_root, ph.state_root, 0⟩ := by
  rw [Pow.seal_eq, if_pos]
  exact h

/-- C5 witness: the amended theorem applied at the all-zero partial header
and the constant-zero hash service. -/
theorem trivial_seal_first_nonce_witness :
    (fun _ => (0 : Nat)) (sealHashInput ⟨0, 0, 0, 0, ()⟩ 0) < u64MAX ∧
    Pow.seal (fun _ => 0) trivial_always_valid_pow 0 ⟨0, 0, 0, 0, ()⟩ =
      some ⟨0, 0, 0, 0, 0⟩ :=
  ⟨by decide, trivial_seal_first_nonce (fun _ => 0) 0 ⟨0, 0, 0, 0, ()⟩ (by decide)⟩

/-- C6: for every threshold, parent digest and sealed header, validate is
true exactly when the hash of the header is below the threshold, and its
verdict does not depend on the parent digest. Determinism is inherent:
validate is a pure function of its arguments in this embedding. -/
theorem validate_iff_hash_below_threshold (hashFn : List Nat → Nat)
    (t parentDigest p2 : Nat) (header : Header Nat) :
    (Pow.validate hashFn ⟨t⟩ parentDigest header = true ↔
      Pow.validateHash hashFn header < t) ∧
    Pow.validate hashFn ⟨t⟩ parentDigest header =
      Pow.validate hashFn ⟨t⟩ p2 header := by
  exact ⟨by simp [Pow.validate], rfl⟩

/-- C7: whenever Pow::seal returns a sealed header, its parent, height,
extrinsics_root and state_root fields equal those of the input partial
header unchanged. -/
theorem seal_preserves_fields (hashFn : List Nat → Nat) (P : Pow)
    (parentDigest : Nat) (ph : Header Unit) (sealed : Header Nat)
    (h : Pow.seal hashFn P parentDigest ph = some sealed) :
    sealed.parent = ph.parent ∧ sealed.height = ph.height ∧
    sealed.extrinsics_root = ph.extrinsics_root ∧
    sealed.state_root = ph.state_root := by
  rw [Pow.seal_eq] at h
  split at h
  · injection h with h2
    subst h2
    exact ⟨rfl, rfl, rfl, rfl⟩
  · exact Option.noConfusion h

/-- C7 witness: the theorem applied at a concrete sealing that succeeds. -/
theorem seal_preserves_fields_witness :
    Pow.seal (fun _ => 0) ⟨1⟩ 0 ⟨1, 2, 3, 4, ()⟩ = some ⟨1, 2, 3, 4, 0⟩ ∧
    ((⟨1, 2, 3, 4, 0⟩ : Header Nat).parent =
        (⟨1, 2, 3, 4, ()⟩ : Header Unit).parent ∧
      (⟨1, 2, 3, 4, 0⟩ : Header Nat).height =
        (⟨1, 2, 3, 4, ()⟩ : Header Unit).height ∧
      (⟨1, 2, 3, 4, 0⟩ : Header Nat).extrinsics_root =
        (⟨1, 2, 3, 4, ()⟩ : Header Unit).extrinsics_root ∧
      (⟨1, 2, 3, 4, 0⟩ : Header Nat).state_root =
        (⟨1, 2, 3, 4, ()⟩ : Header Unit).state_root) :=
  have hs : Pow.seal (fun _ => 0) ⟨1⟩ 0 ⟨1, 2, 3, 4, ()⟩ =
      some ⟨1, 2, 3, 4, 0⟩ := by
    rw [Pow.seal_eq]; rfl
  ⟨hs, seal_preserves_fields (fun _ => 0) ⟨1⟩ 0 ⟨1, 2, 3, 4, ()⟩
    ⟨1, 2, 3, 4, 0⟩ hs⟩

/-- C8: the seal loop iterates candidate nonces exactly over the range from
0 up to but excluding u64::MAX; seal returns none exactly when no nonce in
that range makes the loop's hash fall below the threshold, and any returned
nonce lies strictly below u64::MAX. Being a total function, seal never
throws or aborts. -/
theorem seal_none_iff_range_exhausted (hashFn : List Nat → Nat) (P : Pow)
    (parentDigest : Nat) (ph : Header Unit) :
    (Pow.seal hashFn P parentDigest ph = none ↔
      ∀ nonce, nonce < u64MAX →
        ¬ hashFn (sealHashInput ph nonce) < P.threshold) ∧
    ∀ sealed, Pow.seal hashFn P parentDigest ph = some sealed →
      sealed.consensus_digest < u64MAX := by
  rw [Pow.seal_eq]
  by_cases hc : hashFn (sealHashInput ph 0) < P.threshold
  · rw [if_pos hc]
    refine ⟨⟨fun h => Option.noConfusion h, fun h => ?_⟩, fun sealed hs => ?_⟩
    · exact absurd hc (h 0 (by norm_num [u64MAX]))
    · injection hs with h2
      subst h2
      norm_num [u64MAX]
  · rw [if_neg hc]
    exact ⟨⟨fun _ nonce _ => hc, fun _ => rfl⟩,
      fun sealed hs => Option.noConfusion hs⟩

/-- C9: with threshold 0, validate returns false for every header (no
natural number is below 0) and seal exhausts its range and returns none for
every input partial header. -/
theorem threshold_zero_rejects_all (hashFn : List Nat → Nat)
    (parentDigest : Nat) (header : Header Nat) (ph : Header Unit) :
    Pow.validate hashFn ⟨0⟩ parentDigest header = false ∧
    Pow.seal hashFn ⟨0⟩ parentDigest ph = none := by
  constructor
  · simp [Pow.validate]
  · rw [Pow.seal_eq]; simp

/-- C10: the moderate preset's threshold is u64::MAX / 100 in integer
division, numerically 184467440737095516, and the trivial preset's
threshold is u64::MAX, numerically 18446744073709551615. -/
theorem difficulty_preset_thresholds :
    moderate_difficulty_pow.threshold = 184467440737095516 ∧
    moderate_difficulty_pow.threshold = u64MAX / 100 ∧
    trivial_always_valid_pow.threshold = 18446744073709551615 ∧
    trivial_always_valid_pow.threshold = u64MAX := by
  refine ⟨by decide, rfl, by decide, rfl⟩

end P1Pow
